import Mathlib

/-!
Shallow embedding of the compliance-evaluation engine of `check.py`
(nlp-corpora directory checker).

The filesystem is modelled as an explicit tree (`FSNode`): each node carries
the metadata that `os.stat`, `grp.getgrgid` and `pwd.getpwuid` would surface
(owning group name, owner uid, permission bits), directories carry named
children in enumeration order, and files carry their text lines.  External
collaborators that the spec excludes from the core (the `du` size
measurement, `humanfriendly` size rendering, the uid→user-name password
database, the process uid) are supplied through an `Env` record.

Python's `glob.glob(dir + "/*")` enumerates the children of `dir` in order,
skipping entries whose name starts with a dot; `os.walk` enumerates every
directory (dot or not) top-down, yielding the directory first, then its
files, then recursing into its subdirectories.  Both behaviours are embedded
below (`pyGlobVisible`, `walkEntries`).

The `os.chmod` side effect of `check_op` is modelled by an extra `newMode`
field in its result: the permission bits the node carries after the call.
-/

namespace NlpCorpora

/-- Python whitespace characters recognised by `str.strip()`. -/
def isPySpace (c : Char) : Bool :=
  c = ' ' || c = '\t' || c = '\n' || c = '\r' || c = Char.ofNat 11 || c = Char.ofNat 12

/-- Embedding of Python `str.strip()`: drop leading and trailing whitespace. -/
def pyStrip (s : String) : String :=
  String.mk (((s.data.dropWhile isPySpace).reverse.dropWhile isPySpace).reverse)

/-- Embedding of Python `sep.join(items)`. -/
def joinSep (sep : String) : List String → String
  | [] => ""
  | [x] => x
  | x :: y :: rest => x ++ sep ++ joinSep sep (y :: rest)

/-- Embedding of Python `needle in hay` substring containment on strings. -/
def strContains (hay needle : String) : Bool :=
  hay.data.tails.any (fun t => needle.data.isPrefixOf t)

/-- Embedding of `os.path.basename`: the part of the path after the last slash. -/
def pyBasename (p : String) : String :=
  String.mk ((p.data.reverse.takeWhile (fun c => c ≠ '/')).reverse)

/-- Embedding of `os.path.join` as used in `check.py` (no trailing-slash inputs). -/
def joinPath (p n : String) : String := p ++ "/" ++ n

/-- Name visibility under Python `glob.glob(dir + "/*")`: entries whose name
starts with a dot are not matched by the `*` pattern. -/
def pyGlobVisible (n : String) : Bool :=
  match n.data with
  | [] => true
  | c :: _ => c ≠ '.'

/-- Metadata of one filesystem node, as surfaced by `os.stat` plus the group
and password databases: owning group name (`grp.getgrgid(st_gid).gr_name`),
owner uid (`st_uid`), and permission bits (`stat.S_IMODE(st_mode)`). -/
structure Meta where
  grp : String
  uid : Nat
  mode : Nat
deriving Repr, DecidableEq

/-- A filesystem subtree: a file with text lines, or a directory with named
children in enumeration order. -/
inductive FSNode where
  | file (m : Meta) (lines : List String)
  | dir (m : Meta) (children : List (String × FSNode))
deriving Repr

/-- Ambient process environment: the auditing process's uid (`os.getuid`),
the password database (`pwd.getpwuid(uid).pw_name`), the delegated `du`
size measurement, and the delegated `humanfriendly.format_size` renderer. -/
structure Env where
  procUid : Nat
  pwName : Nat → String
  getSize : String → Nat
  formatSize : Nat → String

/-- Permission-bit constant `stat.S_IRUSR` (0o400). -/
def S_IRUSR : Nat := 0o400
/-- Permission-bit constant `stat.S_IRGRP` (0o040). -/
def S_IRGRP : Nat := 0o040
/-- Permission-bit constant `stat.S_IROTH` (0o004). -/
def S_IROTH : Nat := 0o004
/-- Permission-bit constant `stat.S_IXUSR` (0o100). -/
def S_IXUSR : Nat := 0o100
/-- Permission-bit constant `stat.S_IXGRP` (0o010). -/
def S_IXGRP : Nat := 0o010
/-- Permission-bit constant `stat.S_IXOTH` (0o001). -/
def S_IXOTH : Nat := 0o001

/-- Mode `r--r--r--` from `check.py`. -/
def PERM_ALL_R : Nat := S_IRUSR ||| S_IRGRP ||| S_IROTH

/-- Mode `r-xr-xr-x` from `check.py`. -/
def PERM_ALL_RX : Nat := PERM_ALL_R ||| S_IXUSR ||| S_IXGRP ||| S_IXOTH

/-- Mode `r--r-----` from `check.py`. -/
def PERM_UG_R : Nat := S_IRUSR ||| S_IRGRP

/-- Mode `r-xr-x---` from `check.py`. -/
def PERM_UG_RX : Nat := PERM_UG_R ||| S_IXUSR ||| S_IXGRP

/-- Mask of the three world ("other") permission bits. -/
def worldMask : Nat := S_IROTH ||| 0o002 ||| S_IXOTH

/-- The `Permissions` TypedDict of `check.py`: expected permission bits for
the corpus directory itself, its README.md, and content dirs/files. -/
structure Permissions where
  top : Nat
  readme : Nat
  contents_dir : Nat
  contents_file : Nat
deriving Repr, DecidableEq

/-- The `STD_PERMS` constant of `check.py`. -/
def STD_PERMS : Permissions :=
  { top := PERM_ALL_RX, readme := PERM_ALL_R,
    contents_dir := PERM_ALL_RX, contents_file := PERM_ALL_R }

/-- The `RESTRICTED_PERMS` constant of `check.py`. -/
def RESTRICTED_PERMS : Permissions :=
  { top := PERM_ALL_RX, readme := PERM_ALL_R,
    contents_dir := PERM_UG_RX, contents_file := PERM_UG_R }

/-- The `CLEAN_DIR_WHITELIST` constant of `check.py`. -/
def CLEAN_DIR_WHITELIST : List String := ["original", "processed", "README.md"]

/-- The `DirResult` TypedDict of `check.py`. -/
structure DirResult where
  basename : String
  description : Option String
  size_raw : Nat
  size_human : Option String
  group_ok : Bool
  group : Option String
  owner_ok : Bool
  perms_ok : Bool
  dir_clean : Bool
  readme_exists : Bool
  readme_path : Option String
  readme_desc : Bool
  readme_proc_desc : Bool
  errors : List String
deriving Repr, DecidableEq

/-- Error message of `check_grp` in `check.py`. -/
def grpMsg (path want actual : String) : String :=
  "Expected \"" ++ path ++ "\" to have group \"" ++ want ++
    "\", but had group \"" ++ actual ++ "\""

/-- Error message for a bad owner in `check_op` of `check.py` (the Python
set of acceptable owners is rendered here as a comma-separated list). -/
def ownerMsg (path owner : String) (okOwners : List String) : String :=
  "Path \"" ++ path ++ "\" has owner \"" ++ owner ++
    "\", but needs to be one of \"" ++ joinSep ", " okOwners ++ "\""

/-- Error message for a bad mode in `check_op` of `check.py`. -/
def permMsg (path : String) (cur want : Nat) : String :=
  "Path \"" ++ path ++ "\" has mode \"" ++ toString cur ++
    "\", but want mode to be \"" ++ toString want ++ "\""

/-- Error message of `get_perms` in `check.py` for an unknown group. -/
def unknownGrpMsg (g all : String) : String :=
  "Unknown group \"" ++ g ++ "\"; known groups: \"" ++ all ++ "\""

/-- The `check_grp` function of `check.py`: the node's actual group must
equal the wanted group exactly. -/
def check_grp (path : String) (m : Meta) (want_grp : String) : Bool × List String :=
  if want_grp ≠ m.grp then (false, [grpMsg path want_grp m.grp]) else (true, [])

/-- The `get_perms` function of `check.py`: resolve the node's owning group
to a permission policy.  `std_grps` is the iteration order of the standard
set, `restricted_grps` the (name, description) pairs of the restricted map. -/
def get_perms (m : Meta) (std_grps : List String)
    (restricted_grps : List (String × String)) : Permissions × String × List String :=
  if std_grps.contains m.grp then (STD_PERMS, m.grp, [])
  else if (restricted_grps.map Prod.fst).contains m.grp then (RESTRICTED_PERMS, m.grp, [])
  else
    (RESTRICTED_PERMS, m.grp,
     [unknownGrpMsg m.grp (joinSep ", " (std_grps ++ restricted_grps.map Prod.fst))])

/-- The owner name of a node, via the password database (`pwd.getpwuid`). -/
def owner_of (env : Env) (m : Meta) : String := env.pwName m.uid

/-- Errors produced by the owner check inside `check_op`. -/
def ownerErrsOf (env : Env) (path : String) (m : Meta) (ok_owners : List String) :
    List String :=
  if ok_owners.contains (owner_of env m) then []
  else [ownerMsg path (owner_of env m) ok_owners]

/-- Result of `check_op`: the two verdicts and errors it returns, plus
`newMode`, which records the `os.chmod` side effect (the node's permission
bits after the call). -/
structure OpResult where
  owner_passed : Bool
  perms_passed : Bool
  errors : List String
  newMode : Nat
deriving Repr, DecidableEq

/-- The `check_op` function of `check.py`: check owner and permissions of a
node, and maybe change the permissions (`change` is the `--fix-perms` flag;
the change precondition is `os.getuid() == st_uid`). -/
def check_op (env : Env) (path : String) (m : Meta) (ok_owners : List String)
    (want_perms : Nat) (change : Bool) : OpResult :=
  let ownerPassed := ok_owners.contains (owner_of env m)
  let errs := ownerErrsOf env path m ok_owners
  let can_change := env.procUid == m.uid
  if m.mode ≠ want_perms then
    if change && can_change then
      { owner_passed := ownerPassed, perms_passed := true, errors := errs,
        newMode := want_perms }
    else
      { owner_passed := ownerPassed, perms_passed := false,
        errors := errs ++ [permMsg path m.mode want_perms], newMode := m.mode }
  else
    { owner_passed := ownerPassed, perms_passed := true, errors := errs,
      newMode := m.mode }

/-- The `check_gop` function of `check.py`: run the group, owner and
permission checks on one node, AND the verdicts into the result record, and
append the error strings only when `extend_errors` is set. -/
def check_gop (env : Env) (res : DirResult) (path : String) (m : Meta)
    (want_grp : String) (ok_owners : List String) (want_perms : Nat)
    (change : Bool) (extend_errors : Bool) : DirResult × Bool × Bool × Bool :=
  let g := check_grp path m want_grp
  let res1 := { res with
                group_ok := res.group_ok && g.1,
                errors := res.errors ++ (if extend_errors then g.2 else []) }
  let op := check_op env path m ok_owners want_perms change
  let res2 := { res1 with
                owner_ok := res1.owner_ok && op.owner_passed,
                perms_ok := res1.perms_ok && op.perms_passed,
                errors := res1.errors ++ (if extend_errors then op.errors else []) }
  (res2, g.1, op.owner_passed, op.perms_passed)

/-- One node visited by `os.walk` in `walk_check`: its path, its metadata,
and whether it is a directory (directories get `want_dir_perms`, files get
`want_file_perms`). -/
structure WalkItem where
  path : String
  meta : Meta
  isDir : Bool
deriving Repr, DecidableEq

/-- The file children of a directory, as the `filenames` component of one
`os.walk` triple. -/
def fileItems (path : String) (cs : List (String × FSNode)) : List WalkItem :=
  cs.filterMap (fun c =>
    match c.2 with
    | .file fm _ => some ⟨joinPath path c.1, fm, false⟩
    | .dir _ _ => none)

mutual

/-- Embedding of the `os.walk(root)` traversal order used by `walk_check`:
each directory yields itself, then its files, then recurses into its
subdirectories; walking a non-directory yields nothing. -/
def walkEntries (path : String) : FSNode → List WalkItem
  | .file _ _ => []
  | .dir m cs => ⟨path, m, true⟩ :: (fileItems path cs ++ walkChildren path cs)

/-- Recursion of `walkEntries` into the children of a directory. -/
def walkChildren (path : String) : List (String × FSNode) → List WalkItem
  | [] => []
  | c :: rest => walkEntries (joinPath path c.1) c.2 ++ walkChildren path rest

end

/-- The items `walk_check` visits for a root that may be absent (`os.walk`
of a nonexistent path yields nothing). -/
def walkItems (root : String) : Option FSNode → List WalkItem
  | none => []
  | some t => walkEntries root t

/-- One iteration of the loop body of `walk_check`: run `check_gop` on one
visited node and fold its verdicts into the subtree totals. -/
def walkStep (env : Env) (want_grp : String) (ok_owners : List String)
    (want_dir_perms want_file_perms : Nat) (change verbose : Bool)
    (acc : DirResult × Bool × Bool × Bool) (it : WalkItem) :
    DirResult × Bool × Bool × Bool :=
  let wp := if it.isDir then want_dir_perms else want_file_perms
  let r := check_gop env acc.1 it.path it.meta want_grp ok_owners wp change verbose
  (r.1, acc.2.1 && r.2.1, acc.2.2.1 && r.2.2.1, acc.2.2.2 && r.2.2.2)

/-- Summary error line appended by `walk_check` when not verbose. -/
def summaryMsg (root cat : String) : String :=
  "One or more file/dirs at/below \"" ++ root ++ "\" has " ++ cat ++ " errors."

/-- The `walk_check` function of `check.py`: check group / owner / perms
recursively under a directory, folding subtree AND-totals, and when not
verbose append at most three summary lines instead of per-node errors. -/
def walk_check (env : Env) (res : DirResult) (root : String) (node : Option FSNode)
    (want_grp : String) (ok_owners : List String)
    (want_dir_perms want_file_perms : Nat) (change verbose : Bool) : DirResult :=
  let r := (walkItems root node).foldl
    (walkStep env want_grp ok_owners want_dir_perms want_file_perms change verbose)
    (res, true, true, true)
  let res := r.1
  if !verbose then
    let res := if !r.2.1 then
      { res with errors := res.errors ++ [summaryMsg root "group"] } else res
    let res := if !r.2.2.1 then
      { res with errors := res.errors ++ [summaryMsg root "owner"] } else res
    if !r.2.2.2 then
      { res with errors := res.errors ++ [summaryMsg root "permission"] } else res
  else res

/-- Look up an immediate child of a directory by name (first match in
enumeration order). -/
def findChild (cs : List (String × FSNode)) (name : String) : Option FSNode :=
  (cs.find? (fun c => c.1 == name)).map Prod.snd

/-- Look up an immediate child that is a file (`os.path.isfile`), returning
its metadata and lines. -/
def findFile (cs : List (String × FSNode)) (name : String) :
    Option (Meta × List String) :=
  match findChild cs name with
  | some (.file m ls) => some (m, ls)
  | _ => none

/-- Look up an immediate child that is a directory (`os.path.isdir`),
returning its metadata and children. -/
def findDir (cs : List (String × FSNode)) (name : String) :
    Option (Meta × List (String × FSNode)) :=
  match findChild cs name with
  | some (.dir m cs2) => some (m, cs2)
  | _ => none

/-- The result record as `check_dir` creates it up front ("define res
upfront and mutate as we discover things"). -/
def initDirResult (bn : String) : DirResult :=
  { basename := bn, description := none, size_raw := 0, size_human := none,
    group_ok := true, group := none, owner_ok := true, perms_ok := true,
    dir_clean := false, readme_exists := false, readme_path := none,
    readme_desc := false, readme_proc_desc := false, errors := [] }

/-- The record after `check_dir` fills in the measured size (the `du`
measurement and `humanfriendly` rendering are delegated to `Env`). -/
def sizedInit (env : Env) (path : String) : DirResult :=
  { initDirResult (pyBasename path) with
    size_raw := env.getSize path,
    size_human := some (env.formatSize (env.getSize path)) }

/-- Error message of the directory-cleanliness loop in `check_dir`. -/
def dirtyMsg (n : String) : String :=
  "Directory not clean: bad entry: \"" ++ n ++ "\"."

/-- One iteration of the directory-cleanliness loop of `check_dir` over the
entries returned by `glob` (which skips dot-entries). -/
def dirCleanStep (res : DirResult) (name : String) : DirResult :=
  if pyGlobVisible name && !CLEAN_DIR_WHITELIST.contains name then
    { res with
      dir_clean := false,
      errors := res.errors ++ [dirtyMsg name] }
  else res

/-- The stripped lines of the README as `check_dir` reads them
(`line.strip() for line in f.readlines()`). -/
def readmeLines (rlines : List String) : List String := rlines.map pyStrip

/-- Description extraction of `check_dir`: the first non-empty stripped line
after the first line. -/
def extract_description (rlines : List String) : Option String :=
  ((readmeLines rlines).drop 1).find? (fun l => l.length > 0)

/-- Error message for an undocumented processed variant in `check_dir`. -/
def procMsg (n : String) : String :=
  "Missing description in README.md for processed variant: \"" ++ n ++ "\""

/-- One iteration of the processed-variant loop of `check_dir` over the
entries returned by `glob` (which skips dot-entries): the variant name must
occur as a substring of the joined README text. -/
def procStep (full : String) (res : DirResult) (name : String) : DirResult :=
  if pyGlobVisible name && !strContains full name then
    { res with
      readme_proc_desc := false,
      errors := res.errors ++ [procMsg name] }
  else res

/-- The `check_dir` function of `check.py`: audit one corpus path.  `node`
is the filesystem subtree at `path`; configuration and flags are as in the
source (`std_grps` / `restricted_grps` from the group config, `ok_owners`,
`fix_perms`, `verbose`). -/
def check_dir (env : Env) (path : String) (node : FSNode)
    (std_grps : List String) (restricted_grps : List (String × String))
    (ok_owners : List String) (fix_perms verbose : Bool) : DirResult :=
  let res := sizedInit env path
  match node with
  | .file _ _ =>
    { res with errors := res.errors ++ ["Not a directory but in top-level."] }
  | .dir m cs =>
    let pgr := get_perms m std_grps restricted_grps
    if pgr.2.2.length > 0 then
      { res with group_ok := false, errors := res.errors ++ pgr.2.2 }
    else
      let res := { res with group := some pgr.2.1 }
      let res := (check_gop env res path m pgr.2.1 ok_owners pgr.1.top fix_perms true).1
      let res := { res with dir_clean := true }
      let res := (cs.map Prod.fst).foldl dirCleanStep res
      let readme_fn := joinPath path "README.md"
      match findFile cs "README.md" with
      | none => { res with errors := res.errors ++ ["Missing README.md"] }
      | some (rm, rlines) =>
        let res := { res with readme_exists := true, readme_path := some readme_fn }
        let res :=
          (check_gop env res readme_fn rm pgr.2.1 ok_owners pgr.1.readme fix_perms true).1
        let desc := extract_description rlines
        let res := { res with description := desc, readme_desc := desc.isSome }
        let res := if !res.readme_desc then
          { res with
            errors := res.errors ++
              ["Missing description (second non-empty line) in README.md"] }
          else res
        let res := walk_check env res (joinPath path "original") (findChild cs "original")
          pgr.2.1 ok_owners pgr.1.contents_dir pgr.1.contents_file fix_perms verbose
        let res := { res with readme_proc_desc := true }
        match findDir cs "processed" with
        | none => res
        | some (pm, pcs) =>
          let full_readme := joinSep " " (readmeLines rlines)
          let res := (pcs.map Prod.fst).foldl (procStep full_readme) res
          walk_check env res (joinPath path "processed") (some (.dir pm pcs))
            pgr.2.1 ok_owners pgr.1.contents_dir pgr.1.contents_file fix_perms verbose

/-- The `compute_result_success` function of `check.py`: overall success of
one record is the AND of its seven boolean verdicts. -/
def compute_result_success (r : DirResult) : Bool :=
  r.group_ok && r.owner_ok && r.perms_ok &&
    r.dir_clean && r.readme_exists && r.readme_desc && r.readme_proc_desc

/-- The `compute_success` function of `check.py`: the run passes only if
every record passes (loop with early return on first failure). -/
def compute_success : List DirResult → Bool
  | [] => true
  | r :: rest => if !compute_result_success r then false else compute_success rest

/-! Helper lemmas: closed forms of the record-mutating helpers. -/

/-- Closed form of `check_gop`: the three verdicts are ANDed into the
record and the node's errors appended exactly when `extend_errors`. -/
theorem check_gop_eq (env : Env) (res : DirResult) (path : String) (m : Meta)
    (wg : String) (oo : List String) (wp : Nat) (c e : Bool) :
    check_gop env res path m wg oo wp c e =
      ({ res with
         group_ok := res.group_ok && (check_grp path m wg).1,
         owner_ok := res.owner_ok && (check_op env path m oo wp c).owner_passed,
         perms_ok := res.perms_ok && (check_op env path m oo wp c).perms_passed,
         errors := res.errors ++
           (if e then (check_grp path m wg).2 ++ (check_op env path m oo wp c).errors
            else []) },
       (check_grp path m wg).1,
       (check_op env path m oo wp c).owner_passed,
       (check_op env path m oo wp c).perms_passed) := by
  cases e <;> simp [check_gop, List.append_assoc]

/-- Permissions expected for one walked node: directory or file bits. -/
def itemPerms (wdp wfp : Nat) (it : WalkItem) : Nat :=
  if it.isDir then wdp else wfp

/-- Subtree AND-total of the group checks over a walked item list. -/
def walkG (wg : String) : List WalkItem → Bool
  | [] => true
  | it :: rest => (check_grp it.path it.meta wg).1 && walkG wg rest

/-- Subtree AND-total of the owner checks over a walked item list. -/
def walkO (env : Env) (oo : List String) (wdp wfp : Nat) (c : Bool) :
    List WalkItem → Bool
  | [] => true
  | it :: rest =>
    (check_op env it.path it.meta oo (itemPerms wdp wfp it) c).owner_passed &&
      walkO env oo wdp wfp c rest

/-- Subtree AND-total of the permission checks over a walked item list. -/
def walkP (env : Env) (oo : List String) (wdp wfp : Nat) (c : Bool) :
    List WalkItem → Bool
  | [] => true
  | it :: rest =>
    (check_op env it.path it.meta oo (itemPerms wdp wfp it) c).perms_passed &&
      walkP env oo wdp wfp c rest

/-- All per-node error messages generated over a walked item list. -/
def walkErrs (env : Env) (wg : String) (oo : List String) (wdp wfp : Nat)
    (c : Bool) : List WalkItem → List String
  | [] => []
  | it :: rest =>
    (check_grp it.path it.meta wg).2 ++
      (check_op env it.path it.meta oo (itemPerms wdp wfp it) c).errors ++
        walkErrs env wg oo wdp wfp c rest

/-- Closed form of one walk step. -/
theorem walkStep_eq (env : Env) (wg : String) (oo : List String) (wdp wfp : Nat)
    (c v : Bool) (res : DirResult) (g o p : Bool) (it : WalkItem) :
    walkStep env wg oo wdp wfp c v (res, g, o, p) it =
      ({ res with
         group_ok := res.group_ok && (check_grp it.path it.meta wg).1,
         owner_ok := res.owner_ok &&
           (check_op env it.path it.meta oo (itemPerms wdp wfp it) c).owner_passed,
         perms_ok := res.perms_ok &&
           (check_op env it.path it.meta oo (itemPerms wdp wfp it) c).perms_passed,
         errors := res.errors ++
           (if v then
              (check_grp it.path it.meta wg).2 ++
                (check_op env it.path it.meta oo (itemPerms wdp wfp it) c).errors
            else []) },
       g && (check_grp it.path it.meta wg).1,
       o && (check_op env it.path it.meta oo (itemPerms wdp wfp it) c).owner_passed,
       p && (check_op env it.path it.meta oo (itemPerms wdp wfp it) c).perms_passed) := by
  simp [walkStep, check_gop_eq, itemPerms]

/-- Closed form of the walk fold: verdict totals AND in, per-node errors
appended only when verbose. -/
theorem walkFold_eq (env : Env) (wg : String) (oo : List String) (wdp wfp : Nat)
    (c v : Bool) (items : List WalkItem) :
    ∀ (res : DirResult) (g o p : Bool),
    items.foldl (walkStep env wg oo wdp wfp c v) (res, g, o, p) =
      ({ res with
         group_ok := res.group_ok && walkG wg items,
         owner_ok := res.owner_ok && walkO env oo wdp wfp c items,
         perms_ok := res.perms_ok && walkP env oo wdp wfp c items,
         errors := res.errors ++ (if v then walkErrs env wg oo wdp wfp c items else []) },
       g && walkG wg items,
       o && walkO env oo wdp wfp c items,
       p && walkP env oo wdp wfp c items) := by
  induction items with
  | nil => intro res g o p; cases v <;> simp [walkG, walkO, walkP, walkErrs]
  | cons it rest ih =>
    intro res g o p
    rw [List.foldl_cons, walkStep_eq, ih]
    cases v <;>
      simp [walkG, walkO, walkP, walkErrs, Bool.and_assoc, List.append_assoc]

/-- Summary lines `walk_check` appends when not verbose, given the three
subtree AND-totals. -/
def walkSummaries (root : String) (g o p : Bool) : List String :=
  (if !g then [summaryMsg root "group"] else []) ++
    (if !o then [summaryMsg root "owner"] else []) ++
      (if !p then [summaryMsg root "permission"] else [])

/-- Closed form of `walk_check`. -/
theorem walk_check_eq (env : Env) (res : DirResult) (root : String)
    (node : Option FSNode) (wg : String) (oo : List String) (wdp wfp : Nat)
    (c v : Bool) :
    walk_check env res root node wg oo wdp wfp c v =
      { res with
        group_ok := res.group_ok && walkG wg (walkItems root node),
        owner_ok := res.owner_ok && walkO env oo wdp wfp c (walkItems root node),
        perms_ok := res.perms_ok && walkP env oo wdp wfp c (walkItems root node),
        errors := res.errors ++
          (if v then walkErrs env wg oo wdp wfp c (walkItems root node)
           else
             walkSummaries root (walkG wg (walkItems root node))
               (walkO env oo wdp wfp c (walkItems root node))
               (walkP env oo wdp wfp c (walkItems root node))) } := by
  unfold walk_check
  rw [walkFold_eq]
  cases v
  · cases hG : walkG wg (walkItems root node) <;>
      cases hO : walkO env oo wdp wfp c (walkItems root node) <;>
        cases hP : walkP env oo wdp wfp c (walkItems root node) <;>
          simp [walkSummaries, hG, hO, hP, List.append_assoc]
  · simp

/-- A projection preserved by every step of a fold is preserved by the
whole fold. -/
theorem foldl_preserve {α β γ : Type} (f : α → β → α) (proj : α → γ)
    (h : ∀ a b, proj (f a b) = proj a) (l : List β) :
    ∀ a, proj (l.foldl f a) = proj a := by
  induction l with
  | nil => intro a; rfl
  | cons b rest ih => intro a; rw [List.foldl_cons, ih, h]

/-- A fold whose every step only appends to the error list only appends to
the error list. -/
theorem foldl_errors_extend {β : Type} (f : DirResult → β → DirResult)
    (h : ∀ a b, ∃ l, (f a b).errors = a.errors ++ l) (l : List β) :
    ∀ a : DirResult, ∃ l2, (l.foldl f a).errors = a.errors ++ l2 := by
  induction l with
  | nil => intro a; exact ⟨[], by simp⟩
  | cons b rest ih =>
    intro a
    rcases ih (f a b) with ⟨l2, hl2⟩
    rcases h a b with ⟨l1, hl1⟩
    exact ⟨l1 ++ l2, by rw [List.foldl_cons, hl2, hl1, List.append_assoc]⟩

/-- One cleanliness step never touches the fields other than `dir_clean`
and `errors`, and only appends to `errors`. -/
theorem dirCleanStep_preserve (res : DirResult) (n : String) :
    (dirCleanStep res n).group_ok = res.group_ok ∧
    (dirCleanStep res n).owner_ok = res.owner_ok ∧
    (dirCleanStep res n).perms_ok = res.perms_ok ∧
    (dirCleanStep res n).description = res.description ∧
    (dirCleanStep res n).group = res.group ∧
    (dirCleanStep res n).readme_exists = res.readme_exists ∧
    (dirCleanStep res n).readme_desc = res.readme_desc ∧
    (dirCleanStep res n).readme_proc_desc = res.readme_proc_desc ∧
    ∃ l, (dirCleanStep res n).errors = res.errors ++ l := by
  unfold dirCleanStep
  split
  · exact ⟨rfl, rfl, rfl, rfl, rfl, rfl, rfl, rfl, [dirtyMsg n], rfl⟩
  · exact ⟨rfl, rfl, rfl, rfl, rfl, rfl, rfl, rfl, [], by simp⟩

/-- One processed-variant step never touches the fields other than
`readme_proc_desc` and `errors`, and only appends to `errors`. -/
theorem procStep_preserve (full : String) (res : DirResult) (n : String) :
    (procStep full res n).group_ok = res.group_ok ∧
    (procStep full res n).owner_ok = res.owner_ok ∧
    (procStep full res n).perms_ok = res.perms_ok ∧
    (procStep full res n).description = res.description ∧
    (procStep full res n).readme_exists = res.readme_exists ∧
    (procStep full res n).readme_desc = res.readme_desc ∧
    ∃ l, (procStep full res n).errors = res.errors ++ l := by
  unfold procStep
  split
  · exact ⟨rfl, rfl, rfl, rfl, rfl, rfl, [procMsg n], rfl⟩
  · exact ⟨rfl, rfl, rfl, rfl, rfl, rfl, [], by simp⟩

/-- Verdict of the processed-variant fold: the incoming verdict ANDed with
"every glob-visible name occurs in the joined README text". -/
theorem procFold_verdict (full : String) (names : List String) : ∀ res : DirResult,
    (names.foldl (procStep full) res).readme_proc_desc =
      (res.readme_proc_desc &&
        names.all (fun n => !pyGlobVisible n || strContains full n)) := by
  induction names with
  | nil => intro res; simp
  | cons n rest ih =>
    intro res
    rw [List.foldl_cons, ih]
    unfold procStep
    by_cases h : (pyGlobVisible n && !strContains full n) = true
    · rw [if_pos h]
      rcases Bool.and_eq_true_iff.mp h with ⟨hv, hc⟩
      simp [hv, Bool.not_eq_true' .. |>.mp hc]
    · rw [if_neg h]
      rcases Bool.and_eq_false_iff.mp (Bool.not_eq_true _ |>.mp h) with hv | hc
      · simp [hv, List.all_cons]
      · simp [Bool.not_eq_false' .. |>.mp hc, List.all_cons]

/-- A missing glob-visible variant name leaves its error in the fold
result. -/
theorem procFold_mem (full : String) (names : List String) : ∀ res : DirResult,
    ∀ n ∈ names, pyGlobVisible n = true → strContains full n = false →
    procMsg n ∈ (names.foldl (procStep full) res).errors := by
  induction names with
  | nil => intro res n hn; cases hn
  | cons x rest ih =>
    intro res n hn hv hc
    rw [List.foldl_cons]
    rcases hn with _ | ⟨_, hmem⟩
    · rcases foldl_errors_extend (procStep full)
        (fun a b => (procStep_preserve full a b).2.2.2.2.2.2) rest
        (procStep full res x) with ⟨l2, hl2⟩
      rw [hl2]
      refine List.mem_append_left _ ?_
      unfold procStep
      rw [if_pos (by simp [hv, hc])]
      simp
    · exact ih (procStep full res x) n hmem hv hc

/-- Every member of a joined list occurs in the joined string (between some
surrounding text). -/
theorem joinSep_mem (sep : String) : ∀ (l : List String) (k : String), k ∈ l →
    ∃ a b, joinSep sep l = a ++ k ++ b := by
  intro l
  induction l with
  | nil => intro k hk; cases hk
  | cons x rest ih =>
    intro k hk
    cases rest with
    | nil =>
      rcases hk with _ | ⟨_, hmem⟩
      · exact ⟨"", "", by
          rw [joinSep, String.empty_append, String.append_empty]⟩
      · cases hmem
    | cons y rest2 =>
      rcases hk with _ | ⟨_, hmem⟩
      · refine ⟨"", sep ++ joinSep sep (y :: rest2), ?_⟩
        rw [joinSep, String.empty_append, String.append_assoc]
      · rcases ih k hmem with ⟨a, b, hab⟩
        refine ⟨x ++ sep ++ a, b, ?_⟩
        rw [joinSep, hab]
        simp only [String.append_assoc]

/-- The embedded Python substring test agrees with list-infix containment
on the underlying character lists. -/
theorem strContains_iff (hay needle : String) :
    strContains hay needle = true ↔ needle.data <:+: hay.data := by
  unfold strContains
  rw [List.any_eq_true]
  constructor
  · rintro ⟨t, ht, hp⟩
    exact List.infix_iff_prefix_suffix.mpr
      ⟨t, List.isPrefixOf_iff_prefix.mp hp, (List.mem_tails t hay.data).mp ht⟩
  · intro h
    rcases List.infix_iff_prefix_suffix.mp h with ⟨t, hp, hs⟩
    exact ⟨t, (List.mem_tails t hay.data).mpr hs, List.isPrefixOf_iff_prefix.mpr hp⟩

mutual

/-- Metadata of every node of a subtree (the root included). -/
def allMetas : FSNode → List Meta
  | .file m _ => [m]
  | .dir m cs => m :: allMetasList cs

/-- Metadata of every node in a list of child subtrees. -/
def allMetasList : List (String × FSNode) → List Meta
  | [] => []
  | c :: rest => allMetas c.2 ++ allMetasList rest

end

/-- The metadata of a walked file child is metadata of some node below the
directory. -/
theorem fileItems_meta_mem (path : String) : ∀ (cs : List (String × FSNode)),
    ∀ it ∈ fileItems path cs, it.meta ∈ allMetasList cs := by
  intro cs
  induction cs with
  | nil => intro it hit; simp [fileItems] at hit
  | cons c rest ih =>
    intro it hit
    match hc : c.2 with
    | .file fm ls =>
      rw [fileItems, List.filterMap_cons, hc] at hit
      rcases List.mem_cons.mp hit with h | h
      · subst h
        simp [allMetasList, allMetas, hc]
      · exact List.mem_append_right _ (ih it h)
    | .dir dm dcs =>
      rw [fileItems, List.filterMap_cons, hc] at hit
      exact List.mem_append_right _ (ih it hit)

mutual

/-- Every walked item's metadata is metadata of some node of the subtree. -/
theorem walkEntries_meta_mem (path : String) (t : FSNode) :
    ∀ it ∈ walkEntries path t, it.meta ∈ allMetas t := by
  match t with
  | .file m ls => intro it hit; simp [walkEntries] at hit
  | .dir m cs =>
    intro it hit
    rw [walkEntries] at hit
    rcases List.mem_cons.mp hit with h | h
    · subst h; simp [allMetas]
    · rcases List.mem_append.mp h with h2 | h2
      · exact List.mem_cons_of_mem m (fileItems_meta_mem path cs it h2)
      · exact List.mem_cons_of_mem m (walkChildren_meta_mem path cs it h2)

/-- Every item walked below a child list has metadata of some node in it. -/
theorem walkChildren_meta_mem (path : String) (cs : List (String × FSNode)) :
    ∀ it ∈ walkChildren path cs, it.meta ∈ allMetasList cs := by
  match cs with
  | [] => intro it hit; simp [walkChildren] at hit
  | c :: rest =>
    intro it hit
    rw [walkChildren] at hit
    rcases List.mem_append.mp hit with h | h
    · exact List.mem_append_left _ (walkEntries_meta_mem _ c.2 it h)
    · exact List.mem_append_right _ (walkChildren_meta_mem path rest it h)

end

/-- A child found by name is one of the children, so its nodes' metadata
belongs to the child list's metadata. -/
theorem findChild_meta_sub (name : String) : ∀ (cs : List (String × FSNode)) (t : FSNode),
    findChild cs name = some t → ∀ mt ∈ allMetas t, mt ∈ allMetasList cs := by
  intro cs
  induction cs with
  | nil => intro t ht; simp [findChild] at ht
  | cons c rest ih =>
    intro t ht mt hmt
    unfold findChild at ht
    rw [List.find?_cons] at ht
    cases hcn : (c.1 == name) with
    | true =>
      simp only [hcn] at ht
      have ht2 : c.2 = t := by
        rw [show Option.map Prod.snd (some c) = some c.2 from rfl] at ht
        exact Option.some_inj.mp ht
      rw [allMetasList]
      exact List.mem_append_left _ (ht2 ▸ hmt)
    | false =>
      simp only [hcn] at ht
      rw [allMetasList]
      exact List.mem_append_right _ (ih t ht mt hmt)

/-- Metadata of a file found by name belongs to the child list's
metadata. -/
theorem findFile_meta_mem (cs : List (String × FSNode)) (name : String)
    (m : Meta) (ls : List String) (h : findFile cs name = some (m, ls)) :
    m ∈ allMetasList cs := by
  unfold findFile at h
  match hc : findChild cs name with
  | none => rw [hc] at h; cases h
  | some (.file fm fls) =>
    rw [hc] at h
    simp only [Option.some_inj] at h
    have := findChild_meta_sub name cs _ hc
    have hm : m = fm := by cases h; rfl
    subst hm
    exact this m (by simp [allMetas])
  | some (.dir dm dcs) => rw [hc] at h; cases h

/-- Metadata below a directory found by name belongs to the child list's
metadata. -/
theorem findDir_meta_sub (cs : List (String × FSNode)) (name : String)
    (pm : Meta) (pcs : List (String × FSNode))
    (h : findDir cs name = some (pm, pcs)) :
    ∀ mt ∈ allMetas (.dir pm pcs), mt ∈ allMetasList cs := by
  unfold findDir at h
  match hc : findChild cs name with
  | none => rw [hc] at h; cases h
  | some (.file fm fls) => rw [hc] at h; cases h
  | some (.dir dm dcs) =>
    rw [hc] at h
    simp only [Option.some_inj] at h
    have heq : FSNode.dir pm pcs = FSNode.dir dm dcs := by
      cases h; rfl
    rw [heq]
    exact findChild_meta_sub name cs _ hc

/-- The group check on a node whose wanted group equals its actual group
always passes with no error. -/
theorem check_grp_self (path : String) (m : Meta) :
    check_grp path m m.grp = (true, []) := by
  simp [check_grp]

/-- The walked group AND-total is true when every walked node carries the
wanted group. -/
theorem walkG_eq_true (wg : String) : ∀ (items : List WalkItem),
    (∀ it ∈ items, it.meta.grp = wg) → walkG wg items = true := by
  intro items
  induction items with
  | nil => intro _; rfl
  | cons it rest ih =>
    intro h
    rw [walkG]
    have hg : (check_grp it.path it.meta wg).1 = true := by
      rw [← h it (List.mem_cons_self it rest), check_grp_self]
    rw [hg, ih (fun x hx => h x (List.mem_cons_of_mem it hx))]
    rfl

/-! Pipeline stages of `check_dir` on the no-early-exit path, named so the
later theorems can speak about the record between stages. -/

/-- The record `check_dir` has built right after the directory-cleanliness
loop (group classified, root node checked, cleanliness checked). -/
def resAfterClean (env : Env) (path : String) (m : Meta)
    (cs : List (String × FSNode)) (std_grps : List String)
    (restricted_grps : List (String × String)) (ok_owners : List String)
    (fix_perms : Bool) : DirResult :=
  (cs.map Prod.fst).foldl dirCleanStep
    { (check_gop env
        { sizedInit env path with group := some (get_perms m std_grps restricted_grps).2.1 }
        path m (get_perms m std_grps restricted_grps).2.1 ok_owners
        (get_perms m std_grps restricted_grps).1.top fix_perms true).1 with
      dir_clean := true }

/-- The record `check_dir` has built right after the README checks
(existence recorded, README node checked, description extracted). -/
def resAfterReadme (env : Env) (path : String) (m : Meta)
    (cs : List (String × FSNode)) (std_grps : List String)
    (restricted_grps : List (String × String)) (ok_owners : List String)
    (fix_perms : Bool) (rm : Meta) (rl : List String) : DirResult :=
  let r1 := { resAfterClean env path m cs std_grps restricted_grps ok_owners fix_perms with
              readme_exists := true, readme_path := some (joinPath path "README.md") }
  let r2 := (check_gop env r1 (joinPath path "README.md") rm
    (get_perms m std_grps restricted_grps).2.1 ok_owners
    (get_perms m std_grps restricted_grps).1.readme fix_perms true).1
  let desc := extract_description rl
  let r3 := { r2 with description := desc, readme_desc := desc.isSome }
  if !r3.readme_desc then
    { r3 with
      errors := r3.errors ++ ["Missing description (second non-empty line) in README.md"] }
  else r3

/-- Unknown-group early exit of `check_dir`, as a record equality. -/
theorem check_dir_unknown_grp (env : Env) (path : String) (m : Meta)
    (cs : List (String × FSNode)) (std_grps : List String)
    (restricted_grps : List (String × String)) (ok_owners : List String)
    (fix_perms verbose : Bool)
    (h1 : m.grp ∉ std_grps)
    (h2 : m.grp ∉ restricted_grps.map Prod.fst) :
    check_dir env path (.dir m cs) std_grps restricted_grps ok_owners fix_perms verbose =
      { sizedInit env path with
        group_ok := false,
        errors := [unknownGrpMsg m.grp
          (joinSep ", " (std_grps ++ restricted_grps.map Prod.fst))] } := by
  simp [check_dir, get_perms, h1, h2, sizedInit, initDirResult, List.elem_iff]

/-- Missing-README early exit of `check_dir`, as a record equality. -/
theorem check_dir_no_readme (env : Env) (path : String) (m : Meta)
    (cs : List (String × FSNode)) (std_grps : List String)
    (restricted_grps : List (String × String)) (ok_owners : List String)
    (fix_perms verbose : Bool)
    (hk : (get_perms m std_grps restricted_grps).2.2 = [])
    (hrm : findFile cs "README.md" = none) :
    check_dir env path (.dir m cs) std_grps restricted_grps ok_owners fix_perms verbose =
      { resAfterClean env path m cs std_grps restricted_grps ok_owners fix_perms with
        errors :=
          (resAfterClean env path m cs std_grps restricted_grps ok_owners fix_perms).errors
            ++ ["Missing README.md"] } := by
  simp only [check_dir, hk, hrm, List.length_nil, gt_iff_lt, Nat.lt_irrefl, if_false,
    resAfterClean]

/-- No-processed-directory exit of `check_dir`, as a record equality. -/
theorem check_dir_no_processed (env : Env) (path : String) (m : Meta)
    (cs : List (String × FSNode)) (std_grps : List String)
    (restricted_grps : List (String × String)) (ok_owners : List String)
    (fix_perms verbose : Bool) (rm : Meta) (rl : List String)
    (hk : (get_perms m std_grps restricted_grps).2.2 = [])
    (hrm : findFile cs "README.md" = some (rm, rl))
    (hpd : findDir cs "processed" = none) :
    check_dir env path (.dir m cs) std_grps restricted_grps ok_owners fix_perms verbose =
      { walk_check env
          (resAfterReadme env path m cs std_grps restricted_grps ok_owners fix_perms rm rl)
          (joinPath path "original") (findChild cs "original")
          (get_perms m std_grps restricted_grps).2.1 ok_owners
          (get_perms m std_grps restricted_grps).1.contents_dir
          (get_perms m std_grps restricted_grps).1.contents_file fix_perms verbose with
        readme_proc_desc := true } := by
  simp only [check_dir, hk, hrm, hpd, List.length_nil, gt_iff_lt, Nat.lt_irrefl, if_false,
    resAfterReadme, resAfterClean]

/-- Processed-directory branch of `check_dir`, as a record equality. -/
theorem check_dir_processed (env : Env) (path : String) (m : Meta)
    (cs : List (String × FSNode)) (std_grps : List String)
    (restricted_grps : List (String × String)) (ok_owners : List String)
    (fix_perms verbose : Bool) (rm : Meta) (rl : List String) (pm : Meta)
    (pcs : List (String × FSNode))
    (hk : (get_perms m std_grps restricted_grps).2.2 = [])
    (hrm : findFile cs "README.md" = some (rm, rl))
    (hpd : findDir cs "processed" = some (pm, pcs)) :
    check_dir env path (.dir m cs) std_grps restricted_grps ok_owners fix_perms verbose =
      walk_check env
        ((pcs.map Prod.fst).foldl (procStep (joinSep " " (readmeLines rl)))
          { walk_check env
              (resAfterReadme env path m cs std_grps restricted_grps ok_owners fix_perms rm rl)
              (joinPath path "original") (findChild cs "original")
              (get_perms m std_grps restricted_grps).2.1 ok_owners
              (get_perms m std_grps restricted_grps).1.contents_dir
              (get_perms m std_grps restricted_grps).1.contents_file fix_perms verbose with
            readme_proc_desc := true })
        (joinPath path "processed") (some (.dir pm pcs))
        (get_perms m std_grps restricted_grps).2.1 ok_owners
        (get_perms m std_grps restricted_grps).1.contents_dir
        (get_perms m std_grps restricted_grps).1.contents_file fix_perms verbose := by
  simp only [check_dir, hk, hrm, hpd, List.length_nil, gt_iff_lt, Nat.lt_irrefl, if_false,
    resAfterReadme, resAfterClean]

/-- Concrete environment used by the witness theorems: the auditing process
has uid 0, every uid maps to user "sg01", sizes are reported as 0. -/
def sampleEnv : Env :=
  { procUid := 0, pwName := fun _ => "sg01", getSize := fun _ => 0,
    formatSize := fun _ => "0 bytes" }

/-! Claim C3. -/

/-- C3 counterexample: it is false that all four expected permission values
of the restricted policy clear the world ("other") bits — the collection
root and description document values are world-accessible (`r-xr-xr-x` and
`r--r--r--`). -/
theorem c3_restricted_world_bits_cex :
    ¬(RESTRICTED_PERMS.top &&& worldMask = 0 ∧
      RESTRICTED_PERMS.readme &&& worldMask = 0 ∧
      RESTRICTED_PERMS.contents_dir &&& worldMask = 0 ∧
      RESTRICTED_PERMS.contents_file &&& worldMask = 0) := by
  decide

/-- C3 (amended): only the content-directory and content-file values of the
restricted policy restrict access to owner and group (no world bits); the
collection-root and description-document values are world-accessible and
identical to the standard policy's. -/
theorem c3_restricted_perms_amended :
    RESTRICTED_PERMS.contents_dir &&& worldMask = 0 ∧
    RESTRICTED_PERMS.contents_file &&& worldMask = 0 ∧
    RESTRICTED_PERMS.contents_dir = PERM_UG_RX ∧
    RESTRICTED_PERMS.contents_file = PERM_UG_R ∧
    RESTRICTED_PERMS.top = STD_PERMS.top ∧
    RESTRICTED_PERMS.readme = STD_PERMS.readme ∧
    RESTRICTED_PERMS.top = PERM_ALL_RX ∧
    RESTRICTED_PERMS.readme = PERM_ALL_R := by
  decide

/-! Claim C4. -/

/-- C4: per-collection success is the AND of the seven boolean verdicts, so
flipping any single verdict to false makes overall success false; run-level
success holds exactly when every record is individually successful. -/
theorem c4_success_aggregation :
    (∀ r : DirResult, compute_result_success r =
      (r.group_ok && r.owner_ok && r.perms_ok && r.dir_clean && r.readme_exists &&
        r.readme_desc && r.readme_proc_desc)) ∧
    (∀ r : DirResult,
      compute_result_success { r with group_ok := false } = false ∧
      compute_result_success { r with owner_ok := false } = false ∧
      compute_result_success { r with perms_ok := false } = false ∧
      compute_result_success { r with dir_clean := false } = false ∧
      compute_result_success { r with readme_exists := false } = false ∧
      compute_result_success { r with readme_desc := false } = false ∧
      compute_result_success { r with readme_proc_desc := false } = false) ∧
    (∀ rs : List DirResult,
      compute_success rs = true ↔ ∀ r ∈ rs, compute_result_success r = true) := by
  refine ⟨fun r => rfl, ?_, ?_⟩
  · intro r
    refine ⟨?_, ?_, ?_, ?_, ?_, ?_, ?_⟩ <;> simp [compute_result_success]
  · intro rs
    induction rs with
    | nil => simp [compute_success]
    | cons r rest ih =>
      rw [compute_success]
      by_cases h : compute_result_success r = true
      · simp only [h, Bool.not_true, Bool.false_eq_true, if_false, ih]
        constructor
        · intro hall x hx
          rcases List.mem_cons.mp hx with hx | hx
          · rw [hx]; exact h
          · exact hall x hx
        · intro hall x hx
          exact hall x (List.mem_cons_of_mem r hx)
      · have h2 : compute_result_success r = false := by
          cases hb : compute_result_success r
          · rfl
          · exact absurd hb h
        simp only [h2, Bool.not_false, if_true]
        constructor
        · intro hf; cases hf
        · intro hall
          exact absurd (hall r (List.mem_cons_self r rest)) h

/-- C4 witness: a one-record run with all verdicts true passes. -/
theorem c4_success_aggregation_witness :
    compute_success
      [{ initDirResult "x" with
         dir_clean := true, readme_exists := true,
         readme_desc := true, readme_proc_desc := true }] = true :=
  (c4_success_aggregation.2.2 _).mpr (by decide)

/-! Claim C1. -/

/-- C1 counterexample: the record is created with `dir_clean`,
`readme_exists`, `readme_desc` and `readme_proc_desc` at false, not at the
claimed optimistic default of true. -/
theorem c1_creation_default_cex :
    ¬((initDirResult "corpus").dir_clean = true ∧
      (initDirResult "corpus").readme_exists = true ∧
      (initDirResult "corpus").readme_desc = true ∧
      (initDirResult "corpus").readme_proc_desc = true) := by
  decide

/-- C1 (amended): the three access verdicts (group, owner, permissions) are
created true and are only ever flipped true→false by `check_gop` and
`walk_check`; the four structural verdicts (dir_clean, readme_exists,
readme_desc, readme_proc_desc) are created false and are raised to true
only when their own check stage is reached. -/
theorem c1_verdict_lifecycle :
    (∀ bn : String,
      (initDirResult bn).group_ok = true ∧ (initDirResult bn).owner_ok = true ∧
      (initDirResult bn).perms_ok = true ∧ (initDirResult bn).dir_clean = false ∧
      (initDirResult bn).readme_exists = false ∧ (initDirResult bn).readme_desc = false ∧
      (initDirResult bn).readme_proc_desc = false) ∧
    (∀ (env : Env) (res : DirResult) (path : String) (m : Meta) (wg : String)
        (oo : List String) (wp : Nat) (c e : Bool),
      ((check_gop env res path m wg oo wp c e).1.group_ok = true → res.group_ok = true) ∧
      ((check_gop env res path m wg oo wp c e).1.owner_ok = true → res.owner_ok = true) ∧
      ((check_gop env res path m wg oo wp c e).1.perms_ok = true → res.perms_ok = true)) ∧
    (∀ (env : Env) (res : DirResult) (root : String) (node : Option FSNode)
        (wg : String) (oo : List String) (wdp wfp : Nat) (c v : Bool),
      ((walk_check env res root node wg oo wdp wfp c v).group_ok = true →
        res.group_ok = true) ∧
      ((walk_check env res root node wg oo wdp wfp c v).owner_ok = true →
        res.owner_ok = true) ∧
      ((walk_check env res root node wg oo wdp wfp c v).perms_ok = true →
        res.perms_ok = true)) := by
  refine ⟨fun bn => by simp [initDirResult], ?_, ?_⟩
  · intro env res path m wg oo wp c e
    rw [check_gop_eq]
    exact ⟨fun h => (Bool.and_eq_true_iff.mp h).1,
      fun h => (Bool.and_eq_true_iff.mp h).1,
      fun h => (Bool.and_eq_true_iff.mp h).1⟩
  · intro env res root node wg oo wdp wfp c v
    rw [walk_check_eq]
    exact ⟨fun h => (Bool.and_eq_true_iff.mp h).1,
      fun h => (Bool.and_eq_true_iff.mp h).1,
      fun h => (Bool.and_eq_true_iff.mp h).1⟩

/-- C1 witness: the monotonicity part applied at a concrete passing walk. -/
theorem c1_verdict_lifecycle_witness :
    (initDirResult "c").group_ok = true :=
  (c1_verdict_lifecycle.2.2 sampleEnv (initDirResult "c") "p" none "g" [] 0 0
    false false).1 (by decide)

/-! Field lemmas for the pipeline stages. -/

/-- Fields of `walk_check` other than the three access verdicts and the
errors are untouched; its errors only grow. -/
theorem walk_check_preserve (env : Env) (res : DirResult) (root : String)
    (node : Option FSNode) (wg : String) (oo : List String) (wdp wfp : Nat)
    (c v : Bool) :
    (walk_check env res root node wg oo wdp wfp c v).description = res.description ∧
    (walk_check env res root node wg oo wdp wfp c v).readme_exists = res.readme_exists ∧
    (walk_check env res root node wg oo wdp wfp c v).readme_desc = res.readme_desc ∧
    (walk_check env res root node wg oo wdp wfp c v).readme_proc_desc =
      res.readme_proc_desc ∧
    (walk_check env res root node wg oo wdp wfp c v).dir_clean = res.dir_clean ∧
    (walk_check env res root node wg oo wdp wfp c v).group = res.group ∧
    ∃ l, (walk_check env res root node wg oo wdp wfp c v).errors = res.errors ++ l := by
  rw [walk_check_eq]
  exact ⟨rfl, rfl, rfl, rfl, rfl, rfl, _, rfl⟩

/-- Fields of the record after the cleanliness stage: README-related fields
still at their creation defaults, group recorded, group verdict equal to
the root node's group check. -/
theorem resAfterClean_fields (env : Env) (path : String) (m : Meta)
    (cs : List (String × FSNode)) (std_grps : List String)
    (restricted_grps : List (String × String)) (ok_owners : List String)
    (fix_perms : Bool) :
    (resAfterClean env path m cs std_grps restricted_grps ok_owners fix_perms).readme_exists
      = false ∧
    (resAfterClean env path m cs std_grps restricted_grps ok_owners fix_perms).readme_desc
      = false ∧
    (resAfterClean env path m cs std_grps restricted_grps ok_owners
      fix_perms).readme_proc_desc = false ∧
    (resAfterClean env path m cs std_grps restricted_grps ok_owners fix_perms).description
      = none ∧
    (resAfterClean env path m cs std_grps restricted_grps ok_owners fix_perms).group =
      some (get_perms m std_grps restricted_grps).2.1 ∧
    (resAfterClean env path m cs std_grps restricted_grps ok_owners fix_perms).group_ok =
      (check_grp path m (get_perms m std_grps restricted_grps).2.1).1 := by
  unfold resAfterClean
  rw [check_gop_eq]
  refine ⟨?_, ?_, ?_, ?_, ?_, ?_⟩
  · rw [foldl_preserve dirCleanStep (fun r => r.readme_exists)
      (fun a b => (dirCleanStep_preserve a b).2.2.2.2.2.1)]
    try simp [sizedInit, initDirResult]
  · rw [foldl_preserve dirCleanStep (fun r => r.readme_desc)
      (fun a b => (dirCleanStep_preserve a b).2.2.2.2.2.2.1)]
    try simp [sizedInit, initDirResult]
  · rw [foldl_preserve dirCleanStep (fun r => r.readme_proc_desc)
      (fun a b => (dirCleanStep_preserve a b).2.2.2.2.2.2.2.1)]
    try simp [sizedInit, initDirResult]
  · rw [foldl_preserve dirCleanStep (fun r => r.description)
      (fun a b => (dirCleanStep_preserve a b).2.2.2.1)]
    try simp [sizedInit, initDirResult]
  · rw [foldl_preserve dirCleanStep (fun r => r.group)
      (fun a b => (dirCleanStep_preserve a b).2.2.2.2.1)]
    try simp [sizedInit, initDirResult]
  · rw [foldl_preserve dirCleanStep (fun r => r.group_ok)
      (fun a b => (dirCleanStep_preserve a b).1)]
    try simp [sizedInit, initDirResult]

/-- Fields of the record after the README stage: existence recorded,
description and its verdict taken from the extraction, variant verdict
still at its creation default, group verdict the AND of the root and
README group checks, and the missing-description error recorded when the
extraction is empty. -/
theorem resAfterReadme_fields (env : Env) (path : String) (m : Meta)
    (cs : List (String × FSNode)) (std_grps : List String)
    (restricted_grps : List (String × String)) (ok_owners : List String)
    (fix_perms : Bool) (rm : Meta) (rl : List String) :
    (resAfterReadme env path m cs std_grps restricted_grps ok_owners fix_perms
      rm rl).readme_exists = true ∧
    (resAfterReadme env path m cs std_grps restricted_grps ok_owners fix_perms
      rm rl).description = extract_description rl ∧
    (resAfterReadme env path m cs std_grps restricted_grps ok_owners fix_perms
      rm rl).readme_desc = (extract_description rl).isSome ∧
    (resAfterReadme env path m cs std_grps restricted_grps ok_owners fix_perms
      rm rl).readme_proc_desc = false ∧
    (resAfterReadme env path m cs std_grps restricted_grps ok_owners fix_perms
      rm rl).group_ok =
      ((check_grp path m (get_perms m std_grps restricted_grps).2.1).1 &&
        (check_grp (joinPath path "README.md") rm
          (get_perms m std_grps restricted_grps).2.1).1) ∧
    (extract_description rl = none →
      "Missing description (second non-empty line) in README.md" ∈
        (resAfterReadme env path m cs std_grps restricted_grps ok_owners fix_perms
          rm rl).errors) := by
  rcases resAfterClean_fields env path m cs std_grps restricted_grps ok_owners fix_perms
    with ⟨_, _, h3, _, _, h6⟩
  simp only [resAfterReadme, check_gop_eq]
  by_cases hd : (extract_description rl).isSome = true
  · rw [if_neg (by simp [hd])]
    refine ⟨rfl, rfl, by simp [hd], by simp [h3], by simp [h6, Bool.and_assoc], ?_⟩
    intro hnone
    rw [hnone] at hd
    simp at hd
  · have hd2 : (extract_description rl).isSome = false := by
      cases hb : (extract_description rl).isSome
      · rfl
      · exact absurd hb hd
    rw [if_pos (by simp [hd2])]
    refine ⟨rfl, rfl, by simp [hd2], by simp [h3], by simp [h6, Bool.and_assoc], ?_⟩
    intro _
    simp

/-! Claim C2. -/

/-- C2 counterexample: on the unknown-group early exit the claim says every
subsequent verdict is left at true, but the variant-completeness verdict of
the returned record is false (its creation default), as are dir_clean,
readme_exists and readme_desc. -/
theorem c2_early_exit_cex :
    (check_dir sampleEnv "/p/c" (.dir ⟨"ghostteam", 0, 365⟩ [])
      ["uwnlp"] [("uwnlp-restricted", "ask")] ["sg01"] false false).readme_proc_desc
      = false := by
  decide

/-- C2 (amended): on each early exit every verdict belonging to a
subsequent, not-yet-run check is left at its creation default — true for
the access verdicts (group, owner, permissions), false for the structural
verdicts — and the flag of the failed precondition is false (group_ok for
an unknown group, readme_exists for a missing README; the non-directory
case has no dedicated flag, only its error string). -/
theorem c2_early_exit_defaults :
    (∀ (env : Env) (path : String) (m : Meta) (lines : List String)
        (std_grps : List String) (restricted_grps : List (String × String))
        (ok_owners : List String) (fp v : Bool),
      check_dir env path (.file m lines) std_grps restricted_grps ok_owners fp v =
        { sizedInit env path with errors := ["Not a directory but in top-level."] }) ∧
    (∀ (env : Env) (path : String) (m : Meta) (cs : List (String × FSNode))
        (std_grps : List String) (restricted_grps : List (String × String))
        (ok_owners : List String) (fp v : Bool),
      m.grp ∉ std_grps → m.grp ∉ restricted_grps.map Prod.fst →
      check_dir env path (.dir m cs) std_grps restricted_grps ok_owners fp v =
        { sizedInit env path with
          group_ok := false,
          errors := [unknownGrpMsg m.grp
            (joinSep ", " (std_grps ++ restricted_grps.map Prod.fst))] }) ∧
    (∀ (env : Env) (path : String) (m : Meta) (cs : List (String × FSNode))
        (std_grps : List String) (restricted_grps : List (String × String))
        (ok_owners : List String) (fp v : Bool),
      (get_perms m std_grps restricted_grps).2.2 = [] →
      findFile cs "README.md" = none →
      (check_dir env path (.dir m cs) std_grps restricted_grps ok_owners
        fp v).readme_exists = false ∧
      (check_dir env path (.dir m cs) std_grps restricted_grps ok_owners
        fp v).readme_desc = false ∧
      (check_dir env path (.dir m cs) std_grps restricted_grps ok_owners
        fp v).readme_proc_desc = false ∧
      (check_dir env path (.dir m cs) std_grps restricted_grps ok_owners
        fp v).description = none ∧
      "Missing README.md" ∈
        (check_dir env path (.dir m cs) std_grps restricted_grps ok_owners
          fp v).errors) := by
  refine ⟨?_, ?_, ?_⟩
  · intro env path m lines std_grps restricted_grps ok_owners fp v
    simp [check_dir, sizedInit, initDirResult]
  · intro env path m cs std_grps restricted_grps ok_owners fp v h1 h2
    exact check_dir_unknown_grp env path m cs std_grps restricted_grps ok_owners fp v h1 h2
  · intro env path m cs std_grps restricted_grps ok_owners fp v hk hrm
    rw [check_dir_no_readme env path m cs std_grps restricted_grps ok_owners fp v hk hrm]
    rcases resAfterClean_fields env path m cs std_grps restricted_grps ok_owners fp
      with ⟨h1, h2, h3, h4, _, _⟩
    exact ⟨h1, h2, h3, h4, by simp⟩

/-- C2 witness: the missing-README part applied at a concrete collection
whose README is absent. -/
theorem c2_early_exit_defaults_witness :
    (check_dir sampleEnv "/p/c" (.dir ⟨"uwnlp", 0, 365⟩ [("original", .dir ⟨"uwnlp", 0, 365⟩ [])])
      ["uwnlp"] [] ["sg01"] false false).readme_desc = false :=
  (c2_early_exit_defaults.2.2 sampleEnv "/p/c" ⟨"uwnlp", 0, 365⟩
    [("original", .dir ⟨"uwnlp", 0, 365⟩ [])] ["uwnlp"] [] ["sg01"] false false
    (by decide) (by decide)).2.1

/-! Claim C5. -/

/-- C5: for a node whose group is in neither configured set, policy
resolution returns the restricted policy with exactly one error, that error
names the unknown group and contains every known group name, and
`check_dir` returns early with only group_ok flipped false and that single
error recorded. -/
theorem c5_unknown_group_failsafe :
    ∀ (env : Env) (path : String) (m : Meta) (cs : List (String × FSNode))
      (std_grps : List String) (restricted_grps : List (String × String))
      (ok_owners : List String) (fp v : Bool),
    m.grp ∉ std_grps → m.grp ∉ restricted_grps.map Prod.fst →
    get_perms m std_grps restricted_grps =
      (RESTRICTED_PERMS, m.grp,
        [unknownGrpMsg m.grp (joinSep ", " (std_grps ++ restricted_grps.map Prod.fst))]) ∧
    (∃ a b, unknownGrpMsg m.grp (joinSep ", " (std_grps ++ restricted_grps.map Prod.fst))
      = a ++ m.grp ++ b) ∧
    (∀ k ∈ std_grps ++ restricted_grps.map Prod.fst,
      ∃ a b, joinSep ", " (std_grps ++ restricted_grps.map Prod.fst) = a ++ k ++ b) ∧
    check_dir env path (.dir m cs) std_grps restricted_grps ok_owners fp v =
      { sizedInit env path with
        group_ok := false,
        errors := [unknownGrpMsg m.grp
          (joinSep ", " (std_grps ++ restricted_grps.map Prod.fst))] } := by
  intro env path m cs std_grps restricted_grps ok_owners fp v h1 h2
  refine ⟨?_, ?_, ?_, ?_⟩
  · simp [get_perms, List.elem_iff, h1, h2]
  · refine ⟨"Unknown group \x22",
      "\x22; known groups: \x22" ++
        joinSep ", " (std_grps ++ restricted_grps.map Prod.fst) ++ "\x22", ?_⟩
    simp only [unknownGrpMsg, String.append_assoc]
  · exact fun k hk => joinSep_mem ", " _ k hk
  · exact check_dir_unknown_grp env path m cs std_grps restricted_grps ok_owners fp v h1 h2

/-- C5 witness: policy resolution at the unknown group "ghostteam". -/
theorem c5_unknown_group_failsafe_witness :
    get_perms ⟨"ghostteam", 0, 365⟩ ["uwnlp"] [("uwnlp-restricted", "ask")] =
      (RESTRICTED_PERMS, "ghostteam",
        [unknownGrpMsg "ghostteam"
          (joinSep ", " (["uwnlp"] ++ [("uwnlp-restricted", "ask")].map Prod.fst))]) :=
  (c5_unknown_group_failsafe sampleEnv "/p/c" ⟨"ghostteam", 0, 365⟩ []
    ["uwnlp"] [("uwnlp-restricted", "ask")] ["sg01"] false false
    (by decide) (by decide)).1

/-! Claim C6. -/

/-- C6: the permission check is an exact-equality comparison; on mismatch
with remediation enabled and the process uid equal to the node's owner uid,
the mode is rewritten to the expected value, the check passes, and no
permission error is recorded; in every other mismatch case the check fails
and an error containing the actual and expected values is appended. -/
theorem c6_perm_check_remediation :
    ∀ (env : Env) (path : String) (m : Meta) (ok_owners : List String)
      (wp : Nat) (change : Bool),
    (m.mode = wp →
      check_op env path m ok_owners wp change =
        { owner_passed := ok_owners.contains (owner_of env m), perms_passed := true,
          errors := ownerErrsOf env path m ok_owners, newMode := m.mode }) ∧
    (m.mode ≠ wp → change = true → env.procUid = m.uid →
      check_op env path m ok_owners wp change =
        { owner_passed := ok_owners.contains (owner_of env m), perms_passed := true,
          errors := ownerErrsOf env path m ok_owners, newMode := wp }) ∧
    (m.mode ≠ wp → ¬(change = true ∧ env.procUid = m.uid) →
      check_op env path m ok_owners wp change =
        { owner_passed := ok_owners.contains (owner_of env m), perms_passed := false,
          errors := ownerErrsOf env path m ok_owners ++ [permMsg path m.mode wp],
          newMode := m.mode } ∧
      ∃ a b c, permMsg path m.mode wp =
        a ++ toString m.mode ++ b ++ toString wp ++ c) := by
  intro env path m ok_owners wp change
  refine ⟨?_, ?_, ?_⟩
  · intro heq
    rw [check_op, if_neg (by simp [heq])]
  · intro hneq hch huid
    rw [check_op, if_pos hneq]
    have : (change && (env.procUid == m.uid)) = true := by
      simp [hch, huid]
    rw [if_pos this]
  · intro hneq hnot
    have : (change && (env.procUid == m.uid)) = false := by
      cases hc : change
      · rfl
      · cases hu : env.procUid == m.uid
        · rfl
        · exact absurd ⟨rfl, by simpa using hu⟩ (hc ▸ hnot)
    refine ⟨by rw [check_op, if_pos hneq, this, if_neg (by simp)], ?_⟩
    refine ⟨"Path \x22" ++ path ++ "\x22 has mode \x22",
      "\x22, but want mode to be \x22", "\x22", ?_⟩
    simp only [permMsg, String.append_assoc]

/-- C6 witness: remediation at a mismatched mode owned by the process. -/
theorem c6_perm_check_remediation_witness :
    check_op sampleEnv "/p/f" ⟨"uwnlp", 0, 384⟩ ["sg01"] 292 true =
      { owner_passed := true, perms_passed := true, errors := [], newMode := 292 } := by
  have h := (c6_perm_check_remediation sampleEnv "/p/f" ⟨"uwnlp", 0, 384⟩ ["sg01"]
    292 true).2.1 (by decide) rfl rfl
  rw [h]
  decide

/-! Claim C7. -/

/-- C7: with verbose disabled, a walk appends to the record's error list
exactly the summary lines (one per category, present only when that
category's subtree AND-total is false) — never more than three, however
many nodes failed; with verbose enabled it appends exactly the individual
per-node failure messages. -/
theorem c7_error_volume_policy :
    ∀ (env : Env) (res : DirResult) (root : String) (node : Option FSNode)
      (wg : String) (oo : List String) (wdp wfp : Nat) (c : Bool),
    (walk_check env res root node wg oo wdp wfp c false).errors =
      res.errors ++
        walkSummaries root (walkG wg (walkItems root node))
          (walkO env oo wdp wfp c (walkItems root node))
          (walkP env oo wdp wfp c (walkItems root node)) ∧
    (∀ g o p : Bool, (walkSummaries root g o p).length ≤ 3) ∧
    (walk_check env res root node wg oo wdp wfp c true).errors =
      res.errors ++ walkErrs env wg oo wdp wfp c (walkItems root node) := by
  intro env res root node wg oo wdp wfp c
  refine ⟨?_, ?_, ?_⟩
  · rw [walk_check_eq]; simp
  · intro g o p
    cases g <;> cases o <;> cases p <;> simp [walkSummaries]
  · rw [walk_check_eq]; simp

/-- The group name returned by `get_perms` is always the node's own
discovered group, in every branch. -/
theorem get_perms_grp (m : Meta) (std_grps : List String)
    (restricted_grps : List (String × String)) :
    (get_perms m std_grps restricted_grps).2.1 = m.grp := by
  unfold get_perms
  split
  · rfl
  · split <;> rfl

/-! Claim C8. -/

/-- C8: when `check_dir` reaches the README stage, the recorded description
is the first non-blank (after stripping) line after line 1, the
description-present verdict is exactly whether such a line exists, and when
none exists the missing-description error is recorded; on the claim's
example the extraction yields exactly "The description.". -/
theorem c8_description_extraction :
    (∀ (env : Env) (path : String) (m : Meta) (cs : List (String × FSNode))
        (std_grps : List String) (restricted_grps : List (String × String))
        (ok_owners : List String) (fp v : Bool) (rm : Meta) (rl : List String),
      (get_perms m std_grps restricted_grps).2.2 = [] →
      findFile cs "README.md" = some (rm, rl) →
      (check_dir env path (.dir m cs) std_grps restricted_grps ok_owners
        fp v).description = extract_description rl ∧
      (check_dir env path (.dir m cs) std_grps restricted_grps ok_owners
        fp v).readme_desc = (extract_description rl).isSome ∧
      (extract_description rl = none →
        "Missing description (second non-empty line) in README.md" ∈
          (check_dir env path (.dir m cs) std_grps restricted_grps ok_owners
            fp v).errors)) ∧
    extract_description ["# Title", "", "  ", "The description.", "more text"]
      = some "The description." ∧
    extract_description ["# Title", "", "   "] = none := by
  refine ⟨?_, by decide, by decide⟩
  intro env path m cs std_grps restricted_grps ok_owners fp v rm rl hk hrm
  rcases resAfterReadme_fields env path m cs std_grps restricted_grps ok_owners fp rm rl
    with ⟨_, r2, r3, _, _, r6⟩
  cases hpd : findDir cs "processed" with
  | none =>
    rw [check_dir_no_processed env path m cs std_grps restricted_grps ok_owners
      fp v rm rl hk hrm hpd]
    rcases walk_check_preserve env
      (resAfterReadme env path m cs std_grps restricted_grps ok_owners fp rm rl)
      (joinPath path "original") (findChild cs "original")
      (get_perms m std_grps restricted_grps).2.1 ok_owners
      (get_perms m std_grps restricted_grps).1.contents_dir
      (get_perms m std_grps restricted_grps).1.contents_file fp v
      with ⟨wd, _, wrd, _, _, _, l, wl⟩
    refine ⟨by simp [wd, r2], by simp [wrd, r3], ?_⟩
    intro hnone
    have hmem := r6 hnone
    simp only [wl]
    simp only [List.mem_append]
    exact Or.inl hmem
  | some pp =>
    obtain ⟨pm, pcs⟩ := pp
    rw [check_dir_processed env path m cs std_grps restricted_grps ok_owners
      fp v rm rl pm pcs hk hrm hpd]
    rcases walk_check_preserve env
      (resAfterReadme env path m cs std_grps restricted_grps ok_owners fp rm rl)
      (joinPath path "original") (findChild cs "original")
      (get_perms m std_grps restricted_grps).2.1 ok_owners
      (get_perms m std_grps restricted_grps).1.contents_dir
      (get_perms m std_grps restricted_grps).1.contents_file fp v
      with ⟨wd, _, wrd, _, _, _, l, wl⟩
    set w1 := walk_check env
      (resAfterReadme env path m cs std_grps restricted_grps ok_owners fp rm rl)
      (joinPath path "original") (findChild cs "original")
      (get_perms m std_grps restricted_grps).2.1 ok_owners
      (get_perms m std_grps restricted_grps).1.contents_dir
      (get_perms m std_grps restricted_grps).1.contents_file fp v with hw1
    set w2 := (pcs.map Prod.fst).foldl
      (procStep (joinSep " " (readmeLines rl)))
      { w1 with readme_proc_desc := true } with hw2
    have pd : w2.description = w1.description := by
      rw [hw2]
      rw [foldl_preserve (procStep (joinSep " " (readmeLines rl))) (fun r => r.description)
        (fun a b => (procStep_preserve _ a b).2.2.2.1)]
    have prd : w2.readme_desc = w1.readme_desc := by
      rw [hw2]
      rw [foldl_preserve (procStep (joinSep " " (readmeLines rl))) (fun r => r.readme_desc)
        (fun a b => (procStep_preserve _ a b).2.2.2.2.2.1)]
    rcases foldl_errors_extend (procStep (joinSep " " (readmeLines rl)))
      (fun a b => (procStep_preserve _ a b).2.2.2.2.2.2) (pcs.map Prod.fst)
      { w1 with readme_proc_desc := true } with ⟨l2, hl2⟩
    rcases walk_check_preserve env w2 (joinPath path "processed")
      (some (.dir pm pcs)) (get_perms m std_grps restricted_grps).2.1 ok_owners
      (get_perms m std_grps restricted_grps).1.contents_dir
      (get_perms m std_grps restricted_grps).1.contents_file fp v
      with ⟨vd, _, vrd, _, _, _, l3, vl⟩
    refine ⟨by simp [vd, pd, wd, r2], by simp [vrd, prd, wrd, r3], ?_⟩
    intro hnone
    have hmem := r6 hnone
    rw [vl, hl2]
    simp only [List.mem_append, wl]
    exact Or.inl (Or.inl (Or.inl hmem))

/-- C8 witness: a concrete collection whose README's second non-empty line
is "a corpus". -/
theorem c8_description_extraction_witness :
    (check_dir sampleEnv "/p/c"
      (.dir ⟨"uwnlp", 0, 365⟩
        [("README.md", .file ⟨"uwnlp", 0, 292⟩ ["# T", "", "a corpus"])])
      ["uwnlp"] [] ["sg01"] false false).description =
      extract_description ["# T", "", "a corpus"] :=
  (c8_description_extraction.1 sampleEnv "/p/c" ⟨"uwnlp", 0, 365⟩
    [("README.md", .file ⟨"uwnlp", 0, 292⟩ ["# T", "", "a corpus"])]
    ["uwnlp"] [] ["sg01"] false false ⟨"uwnlp", 0, 292⟩ ["# T", "", "a corpus"]
    (by decide) (by decide)).1

/-! Claim C9. -/

/-- C9 counterexample: a processed variant named ".v" (dot-prefixed, so
skipped by the glob enumeration) is not a substring of the joined README
text, yet the variant-completeness verdict is true — so completeness does
not hold "exactly when every immediate child appears in the text". -/
theorem c9_variant_completeness_cex :
    (check_dir sampleEnv "/p/c"
      (.dir ⟨"uwnlp", 0, 365⟩
        [("README.md", .file ⟨"uwnlp", 0, 292⟩ ["# T", "desc"]),
         ("processed", .dir ⟨"uwnlp", 0, 365⟩ [(".v", .file ⟨"uwnlp", 0, 292⟩ [])])])
      ["uwnlp"] [] ["sg01"] false false).readme_proc_desc = true ∧
    strContains (joinSep " " (readmeLines ["# T", "desc"])) ".v" = false := by
  decide

/-- C9 (amended): variant completeness holds exactly when every immediate
glob-visible child of "processed" (dot-prefixed names are skipped by the
source's glob enumeration) occurs as a literal substring of the stripped
README lines joined with single spaces; each missing such name records an
error naming it; when "processed" is not a directory the verdict is
true. -/
theorem c9_variant_completeness :
    (∀ (env : Env) (path : String) (m : Meta) (cs : List (String × FSNode))
        (std_grps : List String) (restricted_grps : List (String × String))
        (ok_owners : List String) (fp v : Bool) (rm : Meta) (rl : List String)
        (pm : Meta) (pcs : List (String × FSNode)),
      (get_perms m std_grps restricted_grps).2.2 = [] →
      findFile cs "README.md" = some (rm, rl) →
      findDir cs "processed" = some (pm, pcs) →
      (check_dir env path (.dir m cs) std_grps restricted_grps ok_owners
        fp v).readme_proc_desc =
        (pcs.map Prod.fst).all
          (fun n => !pyGlobVisible n || strContains (joinSep " " (readmeLines rl)) n) ∧
      (∀ n ∈ pcs.map Prod.fst, pyGlobVisible n = true →
        strContains (joinSep " " (readmeLines rl)) n = false →
        procMsg n ∈ (check_dir env path (.dir m cs) std_grps restricted_grps
          ok_owners fp v).errors)) ∧
    (∀ (env : Env) (path : String) (m : Meta) (cs : List (String × FSNode))
        (std_grps : List String) (restricted_grps : List (String × String))
        (ok_owners : List String) (fp v : Bool) (rm : Meta) (rl : List String),
      (get_perms m std_grps restricted_grps).2.2 = [] →
      findFile cs "README.md" = some (rm, rl) →
      findDir cs "processed" = none →
      (check_dir env path (.dir m cs) std_grps restricted_grps ok_owners
        fp v).readme_proc_desc = true) ∧
    (∀ hay needle : String,
      strContains hay needle = true ↔ needle.data <:+: hay.data) := by
  refine ⟨?_, ?_, strContains_iff⟩
  · intro env path m cs std_grps restricted_grps ok_owners fp v rm rl pm pcs hk hrm hpd
    rw [check_dir_processed env path m cs std_grps restricted_grps ok_owners
      fp v rm rl pm pcs hk hrm hpd]
    set w1 := walk_check env
      (resAfterReadme env path m cs std_grps restricted_grps ok_owners fp rm rl)
      (joinPath path "original") (findChild cs "original")
      (get_perms m std_grps restricted_grps).2.1 ok_owners
      (get_perms m std_grps restricted_grps).1.contents_dir
      (get_perms m std_grps restricted_grps).1.contents_file fp v with hw1
    set w2 := (pcs.map Prod.fst).foldl
      (procStep (joinSep " " (readmeLines rl)))
      { w1 with readme_proc_desc := true } with hw2
    rcases walk_check_preserve env w2 (joinPath path "processed")
      (some (.dir pm pcs)) (get_perms m std_grps restricted_grps).2.1 ok_owners
      (get_perms m std_grps restricted_grps).1.contents_dir
      (get_perms m std_grps restricted_grps).1.contents_file fp v
      with ⟨_, _, _, vp, _, _, l3, vl⟩
    constructor
    · rw [vp, hw2, procFold_verdict]
      simp
    · intro n hn hv hc
      rw [vl]
      refine List.mem_append_left _ ?_
      rw [hw2]
      exact procFold_mem (joinSep " " (readmeLines rl)) (pcs.map Prod.fst)
        { w1 with readme_proc_desc := true } n hn hv hc
  · intro env path m cs std_grps restricted_grps ok_owners fp v rm rl hk hrm hpd
    rw [check_dir_no_processed env path m cs std_grps restricted_grps ok_owners
      fp v rm rl hk hrm hpd]

/-- C9 witness: a concrete collection whose processed variant "tokenized"
is undocumented, applied through the amended theorem. -/
theorem c9_variant_completeness_witness :
    (check_dir sampleEnv "/p/c"
      (.dir ⟨"uwnlp", 0, 365⟩
        [("README.md", .file ⟨"uwnlp", 0, 292⟩ ["# T", "desc"]),
         ("processed", .dir ⟨"uwnlp", 0, 365⟩
           [("tokenized", .dir ⟨"uwnlp", 0, 365⟩ [])])])
      ["uwnlp"] [] ["sg01"] false false).readme_proc_desc =
      ([("tokenized", FSNode.dir ⟨"uwnlp", 0, 365⟩ [])].map Prod.fst).all
        (fun n => !pyGlobVisible n ||
          strContains (joinSep " " (readmeLines ["# T", "desc"])) n) :=
  (c9_variant_completeness.1 sampleEnv "/p/c" ⟨"uwnlp", 0, 365⟩
    [("README.md", .file ⟨"uwnlp", 0, 292⟩ ["# T", "desc"]),
     ("processed", .dir ⟨"uwnlp", 0, 365⟩ [("tokenized", .dir ⟨"uwnlp", 0, 365⟩ [])])]
    ["uwnlp"] [] ["sg01"] false false ⟨"uwnlp", 0, 292⟩ ["# T", "desc"]
    ⟨"uwnlp", 0, 365⟩ [("tokenized", .dir ⟨"uwnlp", 0, 365⟩ [])]
    (by decide) (by decide) rfl).1

/-! Claim C10. -/

/-- C10: the expected group for every check under a collection is the
collection root's own discovered group, so the root's group check always
passes; if the root's group is classifiable and every node below the root
carries the root's group, the group verdict stays true — it can become
false only through an unclassifiable root group or a differing descendant. -/
theorem c10_root_group_reference :
    ∀ (env : Env) (path : String) (m : Meta) (cs : List (String × FSNode))
      (std_grps : List String) (restricted_grps : List (String × String))
      (ok_owners : List String) (fp v : Bool),
    check_grp path m m.grp = (true, []) ∧
    ((get_perms m std_grps restricted_grps).2.2 = [] →
      (∀ mt ∈ allMetasList cs, mt.grp = m.grp) →
      (check_dir env path (.dir m cs) std_grps restricted_grps ok_owners
        fp v).group_ok = true) := by
  intro env path m cs std_grps restricted_grps ok_owners fp v
  refine ⟨check_grp_self path m, ?_⟩
  intro hk hall
  have hwg := get_perms_grp m std_grps restricted_grps
  have hgroot : (check_grp path m (get_perms m std_grps restricted_grps).2.1).1 = true := by
    rw [hwg, check_grp_self]
  have hwalkG : ∀ (root : String) (name : String),
      walkG (get_perms m std_grps restricted_grps).2.1
        (walkItems root (findChild cs name)) = true := by
    intro root name
    cases hc : findChild cs name with
    | none => rfl
    | some t =>
      apply walkG_eq_true
      intro it hit
      rw [hwg]
      exact hall it.meta
        (findChild_meta_sub name cs t hc it.meta (walkEntries_meta_mem root t it hit))
  cases hrm : findFile cs "README.md" with
  | none =>
    rw [check_dir_no_readme env path m cs std_grps restricted_grps ok_owners fp v hk hrm]
    rcases resAfterClean_fields env path m cs std_grps restricted_grps ok_owners fp
      with ⟨_, _, _, _, _, h6⟩
    simp [h6, hgroot]
  | some rr =>
    obtain ⟨rm, rl⟩ := rr
    have hgrm : (check_grp (joinPath path "README.md") rm
        (get_perms m std_grps restricted_grps).2.1).1 = true := by
      have : rm.grp = m.grp := hall rm (findFile_meta_mem cs "README.md" rm rl hrm)
      rw [hwg, ← this, check_grp_self]
    rcases resAfterReadme_fields env path m cs std_grps restricted_grps ok_owners fp rm rl
      with ⟨_, _, _, _, r5, _⟩
    have hRA : (resAfterReadme env path m cs std_grps restricted_grps ok_owners fp
        rm rl).group_ok = true := by
      rw [r5, hgroot, hgrm]
      rfl
    cases hpd : findDir cs "processed" with
    | none =>
      rw [check_dir_no_processed env path m cs std_grps restricted_grps ok_owners
        fp v rm rl hk hrm hpd]
      rw [show ({ walk_check env
          (resAfterReadme env path m cs std_grps restricted_grps ok_owners fp rm rl)
          (joinPath path "original") (findChild cs "original")
          (get_perms m std_grps restricted_grps).2.1 ok_owners
          (get_perms m std_grps restricted_grps).1.contents_dir
          (get_perms m std_grps restricted_grps).1.contents_file fp v with
          readme_proc_desc := true } : DirResult).group_ok =
        (walk_check env
          (resAfterReadme env path m cs std_grps restricted_grps ok_owners fp rm rl)
          (joinPath path "original") (findChild cs "original")
          (get_perms m std_grps restricted_grps).2.1 ok_owners
          (get_perms m std_grps restricted_grps).1.contents_dir
          (get_perms m std_grps restricted_grps).1.contents_file fp v).group_ok from rfl]
      rw [walk_check_eq]
      simp only [hRA, hwalkG (joinPath path "original") "original"]
      rfl
    | some pp =>
      obtain ⟨pm, pcs⟩ := pp
      rw [check_dir_processed env path m cs std_grps restricted_grps ok_owners
        fp v rm rl pm pcs hk hrm hpd]
      rw [walk_check_eq]
      have hproc : walkG (get_perms m std_grps restricted_grps).2.1
          (walkItems (joinPath path "processed") (some (.dir pm pcs))) = true := by
        apply walkG_eq_true
        intro it hit
        rw [hwg]
        exact hall it.meta
          (findDir_meta_sub cs "processed" pm pcs hpd it.meta
            (walkEntries_meta_mem (joinPath path "processed") (.dir pm pcs) it hit))
      have hfold : ((pcs.map Prod.fst).foldl
          (procStep (joinSep " " (readmeLines rl)))
          { walk_check env
              (resAfterReadme env path m cs std_grps restricted_grps ok_owners fp rm rl)
              (joinPath path "original") (findChild cs "original")
              (get_perms m std_grps restricted_grps).2.1 ok_owners
              (get_perms m std_grps restricted_grps).1.contents_dir
              (get_perms m std_grps restricted_grps).1.contents_file fp v with
            readme_proc_desc := true }).group_ok = true := by
        rw [foldl_preserve (procStep (joinSep " " (readmeLines rl))) (fun r => r.group_ok)
          (fun a b => (procStep_preserve _ a b).1)]
        rw [show ({ walk_check env
            (resAfterReadme env path m cs std_grps restricted_grps ok_owners fp rm rl)
            (joinPath path "original") (findChild cs "original")
            (get_perms m std_grps restricted_grps).2.1 ok_owners
            (get_perms m std_grps restricted_grps).1.contents_dir
            (get_perms m std_grps restricted_grps).1.contents_file fp v with
            readme_proc_desc := true } : DirResult).group_ok =
          (walk_check env
            (resAfterReadme env path m cs std_grps restricted_grps ok_owners fp rm rl)
            (joinPath path "original") (findChild cs "original")
            (get_perms m std_grps restricted_grps).2.1 ok_owners
            (get_perms m std_grps restricted_grps).1.contents_dir
            (get_perms m std_grps restricted_grps).1.contents_file fp v).group_ok from rfl]
        rw [walk_check_eq]
        simp only [hRA, hwalkG (joinPath path "original") "original"]
        rfl
      simp only [hfold, hproc]
      rfl

/-- C10 witness: a concrete collection whose README carries the root's
group passes the group verdict. -/
theorem c10_root_group_reference_witness :
    (check_dir sampleEnv "/p/c"
      (.dir ⟨"uwnlp", 0, 365⟩
        [("README.md", .file ⟨"uwnlp", 0, 292⟩ ["# T", "desc"])])
      ["uwnlp"] [] ["sg01"] false false).group_ok = true :=
  (c10_root_group_reference sampleEnv "/p/c" ⟨"uwnlp", 0, 365⟩
    [("README.md", .file ⟨"uwnlp", 0, 292⟩ ["# T", "desc"])]
    ["uwnlp"] [] ["sg01"] false false).2 (by decide) (by decide)

end NlpCorpora
